import Mathlib

/-!
Shallow embedding of `src/custom_hostname.go` (package cloudflare of the
repository tingwai/cloudflare-go) and proofs about its operations.

Modelling conventions:
* Go strings are Lean `String`s; Go `int` is `Int` (no arithmetic is
  performed on it, so overflow is irrelevant).
* a Go slice is `Option (List α)`: `none` is the nil slice, `some xs` a
  non-nil slice with elements `xs`.
* raw HTTP response bodies are modelled by their JSON parse result:
  `some j` for a body that parses to the JSON value `j`, `none` for a
  body that is not valid JSON.
* the external request dispatcher (`api.makeRequest`, which lives outside
  this file's source) is a parameter of every operation; each operation
  also returns the list of dispatch calls it made, so that statements
  about "exactly one call with such-and-such method/path/body" are
  expressible.
* `github.com/pkg/errors`: `errors.New msg` and `errors.Wrap cause msg`
  are modelled by the `GoErr` inductive; `GoErr.message` renders the
  usual "msg: cause" chain.
-/

namespace CloudflareCH

/-- JSON values. Numbers are modelled as `Int`: no claim in this
development involves fractional numbers. Object fields are kept as an
ordered association list. -/
inductive Json where
  | null
  | bool (b : Bool)
  | num (n : Int)
  | str (s : String)
  | arr (elems : List Json)
  | obj (fields : List (String × Json))

/-- A Go slice: `none` models the nil slice, `some xs` a non-nil slice. -/
abbrev GoSlice (α : Type) := Option (List α)

/-- The elements of a Go slice; ranging over a nil slice visits nothing. -/
def GoSlice.toList {α : Type} (s : GoSlice α) : List α := s.getD []

/-- Errors in the style of github.com/pkg/errors: `new` is `errors.New`,
`wrap` is `errors.Wrap` (annotating a cause with a contextual message). -/
inductive GoErr where
  | new (msg : String)
  | wrap (cause : GoErr) (msg : String)
deriving DecidableEq

/-- The rendered error message: `errors.Wrap` renders as "msg: cause". -/
def GoErr.message : GoErr → String
  | .new m => m
  | .wrap c m => m ++ ": " ++ c.message

/-- Whether a contextual message occurs anywhere in the error chain. -/
def GoErr.mentions (e : GoErr) (m : String) : Bool :=
  match e with
  | .new s => s == m
  | .wrap c s => s == m || c.mentions m

/-- Modelled from the spec: the dispatch-failure contextual message (the
constant `errMakeRequestError` of the repository's errors file, which is
not part of the given source). Its exact text is immaterial to the
claims; what matters is that it is distinct from `errUnmarshalError`. -/
def errMakeRequestError : String := "error from makeRequest"

/-- Modelled from the spec: the decode-failure contextual message (the
constant `errUnmarshalError` of the repository's errors file, not part of
the given source), distinct from the dispatch-failure one. -/
def errUnmarshalError : String := "error unmarshalling the JSON response"

/-! ### Data model (struct declarations of custom_hostname.go) -/

/-- `CustomHostnameStatus` is a string type in the source. -/
abbrev CustomHostnameStatus := String

def PENDING : CustomHostnameStatus := "pending"

def ACTIVE : CustomHostnameStatus := "active"

def MOVED : CustomHostnameStatus := "moved"

def REMOVED : CustomHostnameStatus := "removed"

/-- CustomHostnameSSLSettings represents the SSL settings for a custom
hostname. Defaults are the Go zero values. -/
structure CustomHostnameSSLSettings where
  HTTP2 : String := ""
  TLS13 : String := ""
  MinTLSVersion : String := ""
  Ciphers : GoSlice String := none
deriving DecidableEq

/-- CustomHostnameOwnershipVerification. The Go field `Type` is renamed
`Typ` because `Type` is a Lean keyword. -/
structure CustomHostnameOwnershipVerification where
  Typ : String := ""
  Name : String := ""
  Value : String := ""
deriving DecidableEq

/-- CustomHostnameSSL represents the SSL section in a given custom
hostname. The Go field `Type` is renamed `Typ`. -/
structure CustomHostnameSSL where
  Status : String := ""
  Method : String := ""
  Typ : String := ""
  CnameTarget : String := ""
  CnameName : String := ""
  Settings : CustomHostnameSSLSettings := {}
deriving DecidableEq

/-- CustomMetadata is Go's `map[string]interface{}`: an (unordered) map
from keys to arbitrary JSON values, `none` modelling the nil map. -/
abbrev CustomMetadata := Option (List (String × Json))

/-- CustomHostname represents a custom hostname in a zone. -/
structure CustomHostname where
  ID : String := ""
  Hostname : String := ""
  CustomOriginServer : String := ""
  SSL : CustomHostnameSSL := {}
  CustomMetadata : CustomMetadata := none
  Status : CustomHostnameStatus := ""
  VerificationErrors : GoSlice String := none
  OwnershipVerification : CustomHostnameOwnershipVerification := {}

/-- Modelled from the spec: the generic API-response status block (the
`Response` struct of the repository's api file, not part of the given
source). No claim inspects its contents. -/
structure Response where
  Success : Bool := false
  Errors : GoSlice String := none
  Messages : GoSlice String := none

/-- Modelled from the spec: pagination counters (the `ResultInfo` struct
of the repository's api file, not part of the given source): total count,
page, per-page, total pages. -/
structure ResultInfo where
  Page : Int := 0
  PerPage : Int := 0
  TotalPages : Int := 0
  Count : Int := 0
deriving DecidableEq

/-- CustomHostnameResponse: a response envelope with the resource under
`result` and the embedded (inlined) `Response` block. -/
structure CustomHostnameResponse where
  Result : CustomHostname := {}
  Resp : Response := {}

/-- CustomHostnameListResponse: list result plus inlined `Response` and a
`result_info` block. -/
structure CustomHostnameListResponse where
  Result : GoSlice CustomHostname := none
  Resp : Response := {}
  Info : ResultInfo := {}

/-- CustomHostnameFallbackOrigin represents a Custom Hostnames Fallback
Origin. -/
structure CustomHostnameFallbackOrigin where
  Origin : String := ""
  Status : String := ""
  Errors : GoSlice String := none

/-- CustomHostnameFallbackOriginResponse. -/
structure CustomHostnameFallbackOriginResponse where
  Result : CustomHostnameFallbackOrigin := {}
  Resp : Response := {}

/-! ### encoding/json: marshalling of the tagged structs

These definitions embed the behaviour of Go's `encoding/json` engine on
the struct declarations (with their `json:"...,omitempty"` tags) given in
the source. Note that Go's `omitempty` omits empty strings, len-0
slices/maps and zero numbers/bools, but never omits a struct-typed
field. -/

/-- A string field with `omitempty`: absent when the value is empty. -/
def marshalStrField (k v : String) : List (String × Json) :=
  if v = "" then [] else [(k, .str v)]

/-- A `[]string` field with `omitempty`: absent when nil or of length 0. -/
def marshalStrSliceField (k : String) (v : GoSlice String) : List (String × Json) :=
  if v.toList.isEmpty then [] else [(k, .arr (v.toList.map .str))]

/-- Byte-wise lexicographic comparison of strings (as Go's `<` and the
ordering of `sort.Strings` / JSON map-key marshalling; for the ASCII keys
used here byte order and char order agree). -/
def charListLt : List Char → List Char → Bool
  | [], [] => false
  | [], _ :: _ => true
  | _ :: _, [] => false
  | a :: as, b :: bs =>
    decide (a.toNat < b.toNat) || (decide (a.toNat = b.toNat) && charListLt as bs)

/-- Insert a keyed pair into a key-sorted list (ascending). -/
def sortInsert {α : Type} (p : String × α) : List (String × α) → List (String × α)
  | [] => [p]
  | q :: qs =>
    if charListLt q.1.data p.1.data then q :: sortInsert p qs else p :: q :: qs

/-- Insertion sort by key, ascending, as Go sorts map keys. -/
def sortByKey {α : Type} : List (String × α) → List (String × α)
  | [] => []
  | p :: ps => sortInsert p (sortByKey ps)

/-- A `map[string]interface{}` field with `omitempty`: absent when nil or
empty; Go marshals map keys in sorted order. -/
def marshalMetaField (k : String) (m : CustomMetadata) : List (String × Json) :=
  if (m.getD []).isEmpty then [] else [(k, .obj (sortByKey (m.getD [])))]

/-- Marshal `CustomHostnameSSLSettings` (all fields `omitempty`). -/
def marshalSSLSettings (s : CustomHostnameSSLSettings) : Json :=
  .obj (marshalStrField "http2" s.HTTP2
    ++ marshalStrField "tls_1_3" s.TLS13
    ++ marshalStrField "min_tls_version" s.MinTLSVersion
    ++ marshalStrSliceField "ciphers" s.Ciphers)

/-- Marshal `CustomHostnameSSL`. The struct-typed `settings` field is
emitted unconditionally: Go's `omitempty` never omits a struct value. -/
def marshalSSL (s : CustomHostnameSSL) : Json :=
  .obj (marshalStrField "status" s.Status
    ++ marshalStrField "method" s.Method
    ++ marshalStrField "type" s.Typ
    ++ marshalStrField "cname_target" s.CnameTarget
    ++ marshalStrField "cname" s.CnameName
    ++ [("settings", marshalSSLSettings s.Settings)])

/-- Marshal `CustomHostnameOwnershipVerification`. -/
def marshalOwnership (o : CustomHostnameOwnershipVerification) : Json :=
  .obj (marshalStrField "type" o.Typ
    ++ marshalStrField "name" o.Name
    ++ marshalStrField "value" o.Value)

/-- Marshal `CustomHostname` (field order is the struct declaration
order). The struct-typed fields `ssl` and `ownership_verification` are
emitted unconditionally despite their `omitempty` tags: Go's `omitempty`
never omits a struct value. -/
def marshalCustomHostname (ch : CustomHostname) : Json :=
  .obj (marshalStrField "id" ch.ID
    ++ marshalStrField "hostname" ch.Hostname
    ++ marshalStrField "custom_origin_server" ch.CustomOriginServer
    ++ [("ssl", marshalSSL ch.SSL)]
    ++ marshalMetaField "custom_metadata" ch.CustomMetadata
    ++ marshalStrField "status" ch.Status
    ++ marshalStrSliceField "verification_errors" ch.VerificationErrors
    ++ [("ownership_verification", marshalOwnership ch.OwnershipVerification)])

/-! ### encoding/json: unmarshalling into the tagged structs

Each decoder takes the looked-up field (`none` when the key is absent)
and yields `none` on a type mismatch. Absent and `null` fields leave the
target at its zero value, as `encoding/json` does. -/

/-- Field lookup in a decoded object; with duplicate keys the last wins,
as in `encoding/json`. -/
def jLookup (fields : List (String × Json)) (k : String) : Option Json :=
  match fields with
  | [] => none
  | (k', v) :: rest =>
    match jLookup rest k with
    | some r => some r
    | none => if k' = k then some v else none

/-- Decode a string field. -/
def decStr : Option Json → Option String
  | none => some ""
  | some .null => some ""
  | some (.str s) => some s
  | some _ => none

/-- Decode a bool field. -/
def decBool : Option Json → Option Bool
  | none => some false
  | some .null => some false
  | some (.bool b) => some b
  | some _ => none

/-- Decode an integer field. -/
def decInt : Option Json → Option Int
  | none => some 0
  | some .null => some 0
  | some (.num n) => some n
  | some _ => none

/-- Decode a `[]string` field: absent and `null` give the nil slice, an
array gives a non-nil slice. -/
def decStrSlice : Option Json → Option (GoSlice String)
  | none => some none
  | some .null => some none
  | some (.arr xs) => (xs.mapM fun j => decStr (some j)).map some
  | some _ => none

/-- Decode a `map[string]interface{}` field: any JSON value is accepted
as an `interface{}` map entry. -/
def decMeta : Option Json → Option CustomMetadata
  | none => some none
  | some .null => some none
  | some (.obj fs) => some (some fs)
  | some _ => none

/-- Decode `CustomHostnameSSLSettings`. -/
def decSSLSettings (j : Option Json) : Option CustomHostnameSSLSettings :=
  match j with
  | none => some {}
  | some .null => some {}
  | some (.obj fs) => do
    let h ← decStr (jLookup fs "http2")
    let t ← decStr (jLookup fs "tls_1_3")
    let m ← decStr (jLookup fs "min_tls_version")
    let c ← decStrSlice (jLookup fs "ciphers")
    some ⟨h, t, m, c⟩
  | some _ => none

/-- Decode `CustomHostnameSSL`. -/
def decSSL (j : Option Json) : Option CustomHostnameSSL :=
  match j with
  | none => some {}
  | some .null => some {}
  | some (.obj fs) => do
    let st ← decStr (jLookup fs "status")
    let me ← decStr (jLookup fs "method")
    let ty ← decStr (jLookup fs "type")
    let ct ← decStr (jLookup fs "cname_target")
    let cn ← decStr (jLookup fs "cname")
    let se ← decSSLSettings (jLookup fs "settings")
    some ⟨st, me, ty, ct, cn, se⟩
  | some _ => none

/-- Decode `CustomHostnameOwnershipVerification`. -/
def decOwnership (j : Option Json) : Option CustomHostnameOwnershipVerification :=
  match j with
  | none => some {}
  | some .null => some {}
  | some (.obj fs) => do
    let t ← decStr (jLookup fs "type")
    let n ← decStr (jLookup fs "name")
    let v ← decStr (jLookup fs "value")
    some ⟨t, n, v⟩
  | some _ => none

/-- Decode `CustomHostname`. -/
def decCustomHostname (j : Option Json) : Option CustomHostname :=
  match j with
  | none => some {}
  | some .null => some {}
  | some (.obj fs) => do
    let id ← decStr (jLookup fs "id")
    let hn ← decStr (jLookup fs "hostname")
    let co ← decStr (jLookup fs "custom_origin_server")
    let ssl ← decSSL (jLookup fs "ssl")
    let meta ← decMeta (jLookup fs "custom_metadata")
    let st ← decStr (jLookup fs "status")
    let ve ← decStrSlice (jLookup fs "verification_errors")
    let ov ← decOwnership (jLookup fs "ownership_verification")
    some ⟨id, hn, co, ssl, meta, st, ve, ov⟩
  | some _ => none

/-- Decode a `[]CustomHostname` field. -/
def decCustomHostnameSlice : Option Json → Option (GoSlice CustomHostname)
  | none => some none
  | some .null => some none
  | some (.arr xs) => (xs.mapM fun j => decCustomHostname (some j)).map some
  | some _ => none

/-- Decode the inlined `Response` block from the same top-level fields. -/
def decResponse (fs : List (String × Json)) : Option Response := do
  let s ← decBool (jLookup fs "success")
  let e ← decStrSlice (jLookup fs "errors")
  let m ← decStrSlice (jLookup fs "messages")
  some ⟨s, e, m⟩

/-- Decode `ResultInfo`. -/
def decResultInfo (j : Option Json) : Option ResultInfo :=
  match j with
  | none => some {}
  | some .null => some {}
  | some (.obj fs) => do
    let p ← decInt (jLookup fs "page")
    let pp ← decInt (jLookup fs "per_page")
    let tp ← decInt (jLookup fs "total_pages")
    let c ← decInt (jLookup fs "count")
    some ⟨p, pp, tp, c⟩
  | some _ => none

/-- Decode a top-level `CustomHostnameResponse` (unmarshalling `null`
into a struct leaves it at its zero value, with no error). -/
def decCustomHostnameResponse (j : Json) : Option CustomHostnameResponse :=
  match j with
  | .null => some {}
  | .obj fs => do
    let r ← decCustomHostname (jLookup fs "result")
    let resp ← decResponse fs
    some ⟨r, resp⟩
  | _ => none

/-- Decode into a `*CustomHostnameResponse`: `null` yields a nil
pointer. -/
def decCustomHostnameResponsePtr (j : Json) : Option (Option CustomHostnameResponse) :=
  match j with
  | .null => some none
  | _ => (decCustomHostnameResponse j).map some

/-- Decode a top-level `CustomHostnameListResponse`. -/
def decCustomHostnameListResponse (j : Json) : Option CustomHostnameListResponse :=
  match j with
  | .null => some {}
  | .obj fs => do
    let r ← decCustomHostnameSlice (jLookup fs "result")
    let resp ← decResponse fs
    let info ← decResultInfo (jLookup fs "result_info")
    some ⟨r, resp, info⟩
  | _ => none

/-- Decode a top-level `CustomHostnameFallbackOrigin` value. -/
def decFallbackOrigin (j : Option Json) : Option CustomHostnameFallbackOrigin :=
  match j with
  | none => some {}
  | some .null => some {}
  | some (.obj fs) => do
    let o ← decStr (jLookup fs "origin")
    let s ← decStr (jLookup fs "status")
    let e ← decStrSlice (jLookup fs "errors")
    some ⟨o, s, e⟩
  | some _ => none

/-- Decode a top-level `CustomHostnameFallbackOriginResponse`. -/
def decFallbackOriginResponse (j : Json) : Option CustomHostnameFallbackOriginResponse :=
  match j with
  | .null => some {}
  | .obj fs => do
    let r ← decFallbackOrigin (jLookup fs "result")
    let resp ← decResponse fs
    some ⟨r, resp⟩
  | _ => none

/-- Decode into a `*CustomHostnameFallbackOriginResponse`. -/
def decFallbackOriginResponsePtr (j : Json) : Option (Option CustomHostnameFallbackOriginResponse) :=
  match j with
  | .null => some none
  | _ => (decFallbackOriginResponse j).map some

/-! ### The raw-bytes boundary and json.Unmarshal -/

/-- A raw response body, modelled by its JSON parse result: `none` for a
body that is not valid JSON. -/
abbrev Raw := Option Json

/-- `json.Unmarshal` with a given typed decoder: a malformed body is a
parse error, a well-formed body of the wrong shape is a type error. The
exact stdlib messages are immaterial to the claims. -/
def unmarshalWith {α : Type} (dec : Json → Option α) (res : Raw) : Except GoErr α :=
  match res with
  | none => .error (.new "invalid JSON")
  | some j =>
    match dec j with
    | none => .error (.new "json: cannot unmarshal")
    | some v => .ok v

/-! ### URL query encoding (net/url) -/

/-- Bytes of the UTF-8 encoding of a character (Go strings are UTF-8 byte
sequences; `net/url` escapes byte-wise). -/
def utf8Bytes (c : Char) : List Nat :=
  let n := c.toNat
  if n < 128 then [n]
  else if n < 2048 then [192 + n / 64, 128 + n % 64]
  else if n < 65536 then [224 + n / 4096, 128 + n / 64 % 64, 128 + n % 64]
  else [240 + n / 262144, 128 + n / 4096 % 64, 128 + n / 64 % 64, 128 + n % 64]

/-- Upper-case hex digit, as indexing Go's upperhex table
"0123456789ABCDEF" (the argument is always a nibble, i.e. below 16; the
default only keeps the function total). -/
def hexUpper (n : Nat) : Char := "0123456789ABCDEF".data.getD n '0'

/-- The characters `net/url` leaves unescaped in a query component:
alphanumerics and `-`, `_`, `.`, `~`. -/
def isUnreservedQuery (c : Char) : Bool :=
  c.isAlpha || c.isDigit || c = '-' || c = '_' || c = '.' || c = '~'

/-- Escape one character as `url.QueryEscape` does: unreserved characters
pass through, space becomes `+`, everything else is percent-encoded
byte-wise. -/
def escapeChar (c : Char) : List Char :=
  if isUnreservedQuery c then [c]
  else if c = ' ' then ['+']
  else (utf8Bytes c).flatMap fun b => ['%', hexUpper (b / 16), hexUpper (b % 16)]

/-- `url.QueryEscape` on a character list. -/
def queryEscape (cs : List Char) : List Char := cs.flatMap escapeChar

/-- `url.Values` restricted to what the source uses: `Set` gives each key
a single value. Represented as an association list. -/
def valuesSet (v : List (String × String)) (k val : String) : List (String × String) :=
  if v.any (fun p => p.1 == k) then
    v.map (fun p => if p.1 == k then (k, val) else p)
  else v ++ [(k, val)]

/-- Join encoded pairs with `&`. -/
def intercalateAmp : List (List Char) → List Char
  | [] => []
  | [x] => x
  | x :: xs => x ++ '&' :: intercalateAmp xs

/-- `url.Values.Encode`: sort by key, escape keys and values, join with
`&`. -/
def valuesEncode (v : List (String × String)) : List Char :=
  intercalateAmp ((sortByKey v).map fun p =>
    queryEscape p.1.data ++ '=' :: queryEscape p.2.data)

/-- Decimal digits of a natural number, most significant first; the fuel
argument (always sufficient at `n + 1`) only makes the recursion
structural. -/
def natToCharsCore : Nat → Nat → List Char
  | 0, _ => []
  | fuel + 1, n =>
    if n < 10 then [Nat.digitChar n]
    else natToCharsCore fuel (n / 10) ++ [Nat.digitChar (n % 10)]

/-- Decimal digits of a natural number. -/
def natToChars (n : Nat) : List Char := natToCharsCore (n + 1) n

/-- `strconv.Itoa`: decimal rendering of an integer. -/
def goItoa (i : Int) : String :=
  if i < 0 then ⟨'-' :: natToChars (-i).toNat⟩ else ⟨natToChars i.toNat⟩

/-! ### A query-string reader, used only to state properties of the
built query string (split on `&`, then each piece at its first `=`). -/

/-- Split a character list on `&`. -/
def splitAmp : List Char → List (List Char)
  | [] => [[]]
  | c :: cs =>
    if c = '&' then [] :: splitAmp cs
    else
      match splitAmp cs with
      | [] => [[c]]
      | p :: ps => (c :: p) :: ps

/-- Split a piece at its first `=` into key and value. -/
def splitEq : List Char → List Char × List Char
  | [] => ([], [])
  | c :: cs => if c = '=' then ([], cs) else (c :: (splitEq cs).1, (splitEq cs).2)

/-- The key/value pairs of a query string. -/
def parseQueryPairs (s : List Char) : List (List Char × List Char) :=
  (splitAmp s).map splitEq

/-! ### The dispatcher boundary -/

/-- A request body as passed to the dispatcher. -/
inductive ReqBody where
  | none
  | hostname (ch : CustomHostname)
  | ssl (s : CustomHostnameSSL)
  | fallback (f : CustomHostnameFallbackOrigin)

/-- One dispatch call, as recorded in an operation's trace. -/
structure Call where
  method : String
  uri : String
  body : ReqBody

/-- Modelled from the spec: the external request dispatcher
(`api.makeRequest`, not part of the given source): it accepts method,
path and body and yields either raw response bytes or an error. -/
abbrev Dispatcher := String → String → ReqBody → Except GoErr Raw

/-- Invoke the dispatcher and record the call. -/
def makeRequest (d : Dispatcher) (method uri : String) (body : ReqBody) :
    Except GoErr Raw × List Call :=
  (d method uri body, [⟨method, uri, body⟩])

/-! ### The operations (methods of *API in the source)

Each operation returns the tuple the Go function returns, paired with
the list of dispatch calls it made. -/

namespace API

/-- UpdateCustomHostnameSSL modifies SSL configuration for the given
custom hostname in the given zone (PATCH, body = the SSL payload). -/
def UpdateCustomHostnameSSL (d : Dispatcher) (zoneID customHostnameID : String)
    (ssl : CustomHostnameSSL) :
    (Option CustomHostnameResponse × Option GoErr) × List Call :=
  let uri := "/zones/" ++ zoneID ++ "/custom_hostnames/" ++ customHostnameID
  let (res, calls) := makeRequest d "PATCH" uri (.ssl ssl)
  match res with
  | .error err => ((none, some (.wrap err errMakeRequestError)), calls)
  | .ok res =>
    match unmarshalWith decCustomHostnameResponsePtr res with
    | .error err => ((none, some (.wrap err errUnmarshalError)), calls)
    | .ok response => ((response, none), calls)

/-- DeleteCustomHostname deletes a custom hostname (DELETE). The
response body is decoded, and a decode failure is returned wrapped with
`errUnmarshalError`. -/
def DeleteCustomHostname (d : Dispatcher) (zoneID customHostnameID : String) :
    Option GoErr × List Call :=
  let uri := "/zones/" ++ zoneID ++ "/custom_hostnames/" ++ customHostnameID
  let (res, calls) := makeRequest d "DELETE" uri .none
  match res with
  | .error err => (some (.wrap err errMakeRequestError), calls)
  | .ok res =>
    match unmarshalWith decCustomHostnameResponsePtr res with
    | .error err => (some (.wrap err errUnmarshalError), calls)
    | .ok _ => (Option.none, calls)

/-- CreateCustomHostname creates a new custom hostname (POST, body = the
`CustomHostname` payload). -/
def CreateCustomHostname (d : Dispatcher) (zoneID : String) (ch : CustomHostname) :
    (Option CustomHostnameResponse × Option GoErr) × List Call :=
  let uri := "/zones/" ++ zoneID ++ "/custom_hostnames"
  let (res, calls) := makeRequest d "POST" uri (.hostname ch)
  match res with
  | .error err => ((none, some (.wrap err errMakeRequestError)), calls)
  | .ok res =>
    match unmarshalWith decCustomHostnameResponsePtr res with
    | .error err => ((none, some (.wrap err errUnmarshalError)), calls)
    | .ok response => ((response, none), calls)

/-- The query string (the part after `?`) built by `CustomHostnames`:
`per_page` is fixed at "50", `page` is the stringified page argument, and
`hostname` is set only when the filter's `Hostname` is non-empty. -/
def customHostnamesQueryChars (page : Int) (filter : CustomHostname) : List Char :=
  let v := valuesSet (valuesSet [] "per_page" "50") "page" (goItoa page)
  let v := if filter.Hostname ≠ "" then valuesSet v "hostname" filter.Hostname else v
  valuesEncode v

/-- The URI dispatched by `CustomHostnames`. -/
def customHostnamesURI (zoneID : String) (page : Int) (filter : CustomHostname) : String :=
  "/zones/" ++ zoneID ++ "/custom_hostnames" ++
    ("?" ++ String.mk (customHostnamesQueryChars page filter))

/-- CustomHostnames fetches custom hostnames for the given zone (GET with
query string). NOTE (faithful to line 172 of the source): a decode
failure is wrapped with `errMakeRequestError`, not `errUnmarshalError`.
On either failure the returned slice is the non-nil empty slice and the
`ResultInfo` is zero-valued. -/
def CustomHostnames (d : Dispatcher) (zoneID : String) (page : Int)
    (filter : CustomHostname) :
    (GoSlice CustomHostname × ResultInfo × Option GoErr) × List Call :=
  let uri := customHostnamesURI zoneID page filter
  let (res, calls) := makeRequest d "GET" uri .none
  match res with
  | .error err => ((some [], {}, some (.wrap err errMakeRequestError)), calls)
  | .ok res =>
    match unmarshalWith decCustomHostnameListResponse res with
    | .error err => ((some [], {}, some (.wrap err errMakeRequestError)), calls)
    | .ok r => ((r.Result, r.Info, Option.none), calls)

/-- CustomHostname inspects the given custom hostname in the given zone
(GET). -/
def CustomHostname (d : Dispatcher) (zoneID customHostnameID : String) :
    (CloudflareCH.CustomHostname × Option GoErr) × List Call :=
  let uri := "/zones/" ++ zoneID ++ "/custom_hostnames/" ++ customHostnameID
  let (res, calls) := makeRequest d "GET" uri .none
  match res with
  | .error err => (({}, some (.wrap err errMakeRequestError)), calls)
  | .ok res =>
    match unmarshalWith decCustomHostnameResponse res with
    | .error err => (({}, some (.wrap err errUnmarshalError)), calls)
    | .ok response => ((response.Result, Option.none), calls)

/-- CustomHostnameIDByName retrieves the ID for the given hostname in the
given zone: one first-page list call with the hostname as filter, then a
scan for the first exact match. -/
def CustomHostnameIDByName (d : Dispatcher) (zoneID hostname : String) :
    (String × Option GoErr) × List Call :=
  let res := CustomHostnames d zoneID 1 { Hostname := hostname }
  let calls := res.2
  match res.1 with
  | (_, _, some err) =>
    (("", some (.wrap err "CustomHostnames command failed")), calls)
  | (customHostnames, _, Option.none) =>
    match customHostnames.toList.find? (fun ch => ch.Hostname == hostname) with
    | some ch => ((ch.ID, Option.none), calls)
    | Option.none => (("", some (.new "CustomHostname could not be found")), calls)

/-- UpdateCustomHostnameFallbackOrigin modifies the Custom Hostname
Fallback origin in the given zone (PUT, body = the payload). -/
def UpdateCustomHostnameFallbackOrigin (d : Dispatcher) (zoneID : String)
    (chfo : CustomHostnameFallbackOrigin) :
    (Option CustomHostnameFallbackOriginResponse × Option GoErr) × List Call :=
  let uri := "/zones/" ++ zoneID ++ "/custom_hostnames/fallback_origin"
  let (res, calls) := makeRequest d "PUT" uri (.fallback chfo)
  match res with
  | .error err => ((none, some (.wrap err errMakeRequestError)), calls)
  | .ok res =>
    match unmarshalWith decFallbackOriginResponsePtr res with
    | .error err => ((none, some (.wrap err errUnmarshalError)), calls)
    | .ok response => ((response, none), calls)

/-- CustomHostnameFallbackOrigin inspects the Custom Hostname Fallback
origin in the given zone (GET). -/
def CustomHostnameFallbackOrigin (d : Dispatcher) (zoneID : String) :
    (CloudflareCH.CustomHostnameFallbackOrigin × Option GoErr) × List Call :=
  let uri := "/zones/" ++ zoneID ++ "/custom_hostnames/fallback_origin"
  let (res, calls) := makeRequest d "GET" uri .none
  match res with
  | .error err => (({}, some (.wrap err errMakeRequestError)), calls)
  | .ok res =>
    match unmarshalWith decFallbackOriginResponse res with
    | .error err => (({}, some (.wrap err errUnmarshalError)), calls)
    | .ok response => ((response.Result, Option.none), calls)

end API

end CloudflareCH

namespace CloudflareCH

/-! ### Lemmas about url.QueryEscape and url.Values.Encode -/

theorem unreserved_ne {x : Char} (h : isUnreservedQuery x = true) :
    x ≠ '&' ∧ x ≠ '=' := by
  refine ⟨fun hx => ?_, fun hx => ?_⟩ <;> subst hx <;> exact absurd h (by decide)

theorem hexUpper_ne (k : Nat) : hexUpper k ≠ '&' ∧ hexUpper k ≠ '=' := by
  by_cases hk : k < 16
  · have h : ∀ m, m < 16 → hexUpper m ≠ '&' ∧ hexUpper m ≠ '=' := by decide
    exact h k hk
  · have h0 : hexUpper k = '0' := by
      unfold hexUpper
      refine List.getD_eq_default _ _ ?_
      rw [show ("0123456789ABCDEF".data.length) = 16 from rfl]
      omega
    rw [h0]
    exact ⟨by decide, by decide⟩

theorem escapeChar_ne (c : Char) : ∀ x ∈ escapeChar c, x ≠ '&' ∧ x ≠ '=' := by
  intro x hx
  unfold escapeChar at hx
  split at hx
  · simp only [List.mem_singleton] at hx
    subst hx
    exact unreserved_ne (by assumption)
  · split at hx
    · simp only [List.mem_singleton] at hx
      subst hx
      exact ⟨by decide, by decide⟩
    · simp only [List.mem_flatMap, List.mem_cons, List.not_mem_nil, or_false] at hx
      obtain ⟨b, -, hb⟩ := hx
      rcases hb with rfl | rfl | rfl
      · exact ⟨by decide, by decide⟩
      · exact hexUpper_ne _
      · exact hexUpper_ne _

theorem queryEscape_ne (s : List Char) : ∀ x ∈ queryEscape s, x ≠ '&' ∧ x ≠ '=' := by
  intro x hx
  simp only [queryEscape, List.mem_flatMap] at hx
  obtain ⟨c, -, hc⟩ := hx
  exact escapeChar_ne c x hc

theorem queryEscape_of_unreserved (s : List Char)
    (h : ∀ x ∈ s, isUnreservedQuery x = true) : queryEscape s = s := by
  induction s with
  | nil => rfl
  | cons c cs ih =>
    have hc : isUnreservedQuery c = true := h c (by simp)
    simp only [queryEscape, List.flatMap_cons] at *
    rw [escapeChar, if_pos hc, ih (fun x hx => h x (by simp [hx]))]
    rfl

theorem natToCharsCore_unreserved :
    ∀ fuel n, ∀ x ∈ natToCharsCore fuel n, isUnreservedQuery x = true := by
  intro fuel
  induction fuel with
  | zero => intro n x hx; simp [natToCharsCore] at hx
  | succ fuel ih =>
    intro n x hx
    have hd : ∀ k, k < 10 → isUnreservedQuery (Nat.digitChar k) = true := by decide
    rw [natToCharsCore] at hx
    split at hx
    · simp only [List.mem_singleton] at hx
      subst hx
      exact hd n (by assumption)
    · simp only [List.mem_append, List.mem_singleton] at hx
      rcases hx with hx | hx
      · exact ih _ x hx
      · subst hx
        exact hd _ (Nat.mod_lt _ (by omega))

theorem goItoa_unreserved (i : Int) :
    ∀ x ∈ (goItoa i).data, isUnreservedQuery x = true := by
  intro x hx
  unfold goItoa at hx
  split at hx
  · have hx' : x ∈ '-' :: natToChars (-i).toNat := hx
    rcases List.mem_cons.mp hx' with rfl | h2
    · decide
    · exact natToCharsCore_unreserved _ _ x h2
  · have hx' : x ∈ natToChars i.toNat := hx
    exact natToCharsCore_unreserved _ _ x hx'

/-! ### Lemmas about the query-string reader -/

theorem splitAmp_ne_nil (s : List Char) : splitAmp s ≠ [] := by
  cases s with
  | nil => simp [splitAmp]
  | cons c cs =>
    rw [splitAmp]
    split
    · simp
    · cases h : splitAmp cs <;> simp

theorem splitAmp_append (a r : List Char) (h : ∀ c ∈ a, c ≠ '&') :
    splitAmp (a ++ '&' :: r) = a :: splitAmp r := by
  induction a with
  | nil => simp [splitAmp]
  | cons c cs ih =>
    have hc : c ≠ '&' := h c (by simp)
    have ih' := ih (fun x hx => h x (by simp [hx]))
    rw [List.cons_append, splitAmp, if_neg hc, ih']

theorem splitAmp_no_amp (a : List Char) (ha : a ≠ []) (h : ∀ c ∈ a, c ≠ '&') :
    splitAmp a = [a] := by
  induction a with
  | nil => exact absurd rfl ha
  | cons c cs ih =>
    have hc : c ≠ '&' := h c (by simp)
    rw [splitAmp, if_neg hc]
    cases hcs : cs with
    | nil => simp [splitAmp]
    | cons x xs =>
      rw [← hcs, ih (by simp [hcs]) (fun x hx => h x (by simp [hx]))]

theorem splitEq_append (k v : List Char) (h : ∀ c ∈ k, c ≠ '=') :
    splitEq (k ++ '=' :: v) = (k, v) := by
  induction k with
  | nil => simp [splitEq]
  | cons c cs ih =>
    have hc : c ≠ '=' := h c (by simp)
    have ih' := ih (fun x hx => h x (by simp [hx]))
    rw [List.cons_append, splitEq, if_neg hc, ih']

end CloudflareCH

namespace CloudflareCH

/-! ### The exact shape of the query string built by CustomHostnames -/

theorem valuesEncode_two (I : String) :
    valuesEncode [("per_page", "50"), ("page", I)] =
      ("page".data ++ '=' :: queryEscape I.data) ++ '&' ::
        ("per_page".data ++ '=' :: "50".data) := rfl

theorem valuesEncode_three (H I : String) :
    valuesEncode [("per_page", "50"), ("page", I), ("hostname", H)] =
      ("hostname".data ++ '=' :: queryEscape H.data) ++ '&' ::
        (("page".data ++ '=' :: queryEscape I.data) ++ '&' ::
          ("per_page".data ++ '=' :: "50".data)) := rfl

theorem queryChars_eq_of_empty (page : Int) (filter : CustomHostname)
    (hf : filter.Hostname = "") :
    API.customHostnamesQueryChars page filter =
      ("page".data ++ '=' :: (goItoa page).data) ++ '&' ::
        ("per_page".data ++ '=' :: "50".data) := by
  have h2 := valuesEncode_two (goItoa page)
  rw [queryEscape_of_unreserved _ (goItoa_unreserved page)] at h2
  unfold API.customHostnamesQueryChars
  rw [hf]
  exact h2

theorem queryChars_eq_of_ne (page : Int) (filter : CustomHostname)
    (hf : filter.Hostname ≠ "") :
    API.customHostnamesQueryChars page filter =
      ("hostname".data ++ '=' :: queryEscape filter.Hostname.data) ++ '&' ::
        (("page".data ++ '=' :: (goItoa page).data) ++ '&' ::
          ("per_page".data ++ '=' :: "50".data)) := by
  have h3 := valuesEncode_three filter.Hostname (goItoa page)
  rw [queryEscape_of_unreserved ((goItoa page).data) (goItoa_unreserved page)] at h3
  simp only [API.customHostnamesQueryChars]
  rw [if_pos hf]
  exact h3

theorem parse_queryChars (page : Int) (filter : CustomHostname) :
    parseQueryPairs (API.customHostnamesQueryChars page filter) =
      (if filter.Hostname = "" then []
       else [("hostname".data, queryEscape filter.Hostname.data)])
      ++ [("page".data, (goItoa page).data), ("per_page".data, "50".data)] := by
  have hB : ∀ c ∈ "page".data ++ '=' :: (goItoa page).data, c ≠ '&' := by
    intro c hc
    rcases List.mem_append.mp hc with h | h
    · exact (by decide : ∀ c ∈ "page".data, c ≠ '&') c h
    · rcases List.mem_cons.mp h with rfl | h2
      · decide
      · exact (unreserved_ne (goItoa_unreserved page c h2)).1
  by_cases hf : filter.Hostname = ""
  · rw [queryChars_eq_of_empty page filter hf, if_pos hf]
    unfold parseQueryPairs
    rw [splitAmp_append _ _ hB, splitAmp_no_amp _ (by decide) (by decide)]
    simp only [List.map_cons, List.map_nil]
    rw [splitEq_append _ _ (by decide),
      show splitEq ("per_page".data ++ '=' :: "50".data)
        = ("per_page".data, "50".data) from by decide]
    simp
  · rw [queryChars_eq_of_ne page filter hf, if_neg hf]
    unfold parseQueryPairs
    have hA : ∀ c ∈ "hostname".data ++ '=' :: queryEscape filter.Hostname.data,
        c ≠ '&' := by
      intro c hc
      rcases List.mem_append.mp hc with h | h
      · exact (by decide : ∀ c ∈ "hostname".data, c ≠ '&') c h
      · rcases List.mem_cons.mp h with rfl | h2
        · decide
        · exact (queryEscape_ne _ c h2).1
    rw [splitAmp_append _ _ hA, splitAmp_append _ _ hB,
      splitAmp_no_amp _ (by decide) (by decide)]
    simp only [List.map_cons, List.map_nil]
    rw [splitEq_append _ _ (by decide), splitEq_append _ _ (by decide),
      show splitEq ("per_page".data ++ '=' :: "50".data)
        = ("per_page".data, "50".data) from by decide]
    simp

end CloudflareCH

namespace CloudflareCH

/-! ### Characterization of the operations -/

theorem customHostnames_calls (d : Dispatcher) (z : String) (page : Int)
    (f : CustomHostname) :
    (API.CustomHostnames d z page f).2
      = [⟨"GET", API.customHostnamesURI z page f, .none⟩] := by
  cases h : d "GET" (API.customHostnamesURI z page f) ReqBody.none with
  | error e => simp [API.CustomHostnames, makeRequest, h]
  | ok raw =>
    cases h2 : unmarshalWith decCustomHostnameListResponse raw <;>
      simp [API.CustomHostnames, makeRequest, h, h2]

theorem customHostnames_dispatch_err (d : Dispatcher) (z : String) (page : Int)
    (f : CustomHostname) (e : GoErr)
    (h : d "GET" (API.customHostnamesURI z page f) ReqBody.none = .error e) :
    (API.CustomHostnames d z page f).1
      = (some [], {}, some (.wrap e errMakeRequestError)) := by
  simp [API.CustomHostnames, makeRequest, h]

theorem customHostnames_decode_err (d : Dispatcher) (z : String) (page : Int)
    (f : CustomHostname) (raw : Raw) (e : GoErr)
    (hok : d "GET" (API.customHostnamesURI z page f) ReqBody.none = .ok raw)
    (hdec : unmarshalWith decCustomHostnameListResponse raw = .error e) :
    (API.CustomHostnames d z page f).1
      = (some [], {}, some (.wrap e errMakeRequestError)) := by
  simp [API.CustomHostnames, makeRequest, hok, hdec]

theorem customHostnames_ok (d : Dispatcher) (z : String) (page : Int)
    (f : CustomHostname) (raw : Raw) (lr : CustomHostnameListResponse)
    (hok : d "GET" (API.customHostnamesURI z page f) ReqBody.none = .ok raw)
    (hdec : unmarshalWith decCustomHostnameListResponse raw = .ok lr) :
    (API.CustomHostnames d z page f).1 = (lr.Result, lr.Info, none) := by
  simp [API.CustomHostnames, makeRequest, hok, hdec]

theorem idByName_calls (d : Dispatcher) (z h : String) :
    (API.CustomHostnameIDByName d z h).2
      = (API.CustomHostnames d z 1 { Hostname := h }).2 := by
  rcases hres : (API.CustomHostnames d z 1 { Hostname := h }).1 with ⟨chs, info, err⟩
  simp only [API.CustomHostnameIDByName]
  rw [hres]
  cases err with
  | some e => rfl
  | none => cases hf : chs.toList.find? (fun ch => ch.Hostname == h) <;> simp [hf]

theorem idByName_err (d : Dispatcher) (z h : String) (e : GoErr)
    (he : (API.CustomHostnames d z 1 { Hostname := h }).1.2.2 = some e) :
    (API.CustomHostnameIDByName d z h).1
      = ("", some (.wrap e "CustomHostnames command failed")) := by
  rcases hres : (API.CustomHostnames d z 1 { Hostname := h }).1 with ⟨chs, info, err⟩
  rw [hres] at he
  simp only at he
  subst he
  simp only [API.CustomHostnameIDByName]
  rw [hres]

theorem idByName_found (d : Dispatcher) (z h : String) (ch : CustomHostname)
    (he : (API.CustomHostnames d z 1 { Hostname := h }).1.2.2 = none)
    (hf : (API.CustomHostnames d z 1 { Hostname := h }).1.1.toList.find?
        (fun c => c.Hostname == h) = some ch) :
    (API.CustomHostnameIDByName d z h).1 = (ch.ID, none) := by
  rcases hres : (API.CustomHostnames d z 1 { Hostname := h }).1 with ⟨chs, info, err⟩
  rw [hres] at he hf
  simp only at he hf
  subst he
  simp only [API.CustomHostnameIDByName, hres, hf]

theorem idByName_notfound (d : Dispatcher) (z h : String)
    (he : (API.CustomHostnames d z 1 { Hostname := h }).1.2.2 = none)
    (hf : (API.CustomHostnames d z 1 { Hostname := h }).1.1.toList.find?
        (fun c => c.Hostname == h) = none) :
    (API.CustomHostnameIDByName d z h).1
      = ("", some (.new "CustomHostname could not be found")) := by
  rcases hres : (API.CustomHostnames d z 1 { Hostname := h }).1 with ⟨chs, info, err⟩
  rw [hres] at he hf
  simp only at he hf
  subst he
  simp only [API.CustomHostnameIDByName, hres, hf]

theorem updateSSL_calls (d : Dispatcher) (z id : String) (ssl : CustomHostnameSSL) :
    (API.UpdateCustomHostnameSSL d z id ssl).2
      = [⟨"PATCH", "/zones/" ++ z ++ "/custom_hostnames/" ++ id, .ssl ssl⟩] := by
  cases h : d "PATCH" ("/zones/" ++ z ++ "/custom_hostnames/" ++ id) (.ssl ssl) with
  | error e => simp [API.UpdateCustomHostnameSSL, makeRequest, h]
  | ok raw =>
    cases h2 : unmarshalWith decCustomHostnameResponsePtr raw <;>
      simp [API.UpdateCustomHostnameSSL, makeRequest, h, h2]

theorem updateSSL_dispatch_err (d : Dispatcher) (z id : String)
    (ssl : CustomHostnameSSL) (e : GoErr)
    (h : d "PATCH" ("/zones/" ++ z ++ "/custom_hostnames/" ++ id) (.ssl ssl)
      = .error e) :
    (API.UpdateCustomHostnameSSL d z id ssl).1
      = (none, some (.wrap e errMakeRequestError)) := by
  simp [API.UpdateCustomHostnameSSL, makeRequest, h]

theorem updateSSL_ok (d : Dispatcher) (z id : String) (ssl : CustomHostnameSSL)
    (raw : Raw) (resp : Option CustomHostnameResponse)
    (hok : d "PATCH" ("/zones/" ++ z ++ "/custom_hostnames/" ++ id) (.ssl ssl)
      = .ok raw)
    (hdec : unmarshalWith decCustomHostnameResponsePtr raw = .ok resp) :
    (API.UpdateCustomHostnameSSL d z id ssl).1 = (resp, none) := by
  simp [API.UpdateCustomHostnameSSL, makeRequest, hok, hdec]

theorem delete_calls (d : Dispatcher) (z id : String) :
    (API.DeleteCustomHostname d z id).2
      = [⟨"DELETE", "/zones/" ++ z ++ "/custom_hostnames/" ++ id, .none⟩] := by
  cases h : d "DELETE" ("/zones/" ++ z ++ "/custom_hostnames/" ++ id) ReqBody.none with
  | error e => simp [API.DeleteCustomHostname, makeRequest, h]
  | ok raw =>
    cases h2 : unmarshalWith decCustomHostnameResponsePtr raw <;>
      simp [API.DeleteCustomHostname, makeRequest, h, h2]

theorem delete_dispatch_err (d : Dispatcher) (z id : String) (e : GoErr)
    (h : d "DELETE" ("/zones/" ++ z ++ "/custom_hostnames/" ++ id) ReqBody.none
      = .error e) :
    (API.DeleteCustomHostname d z id).1 = some (.wrap e errMakeRequestError) := by
  simp [API.DeleteCustomHostname, makeRequest, h]

theorem delete_decode_err (d : Dispatcher) (z id : String) (raw : Raw) (e : GoErr)
    (hok : d "DELETE" ("/zones/" ++ z ++ "/custom_hostnames/" ++ id) ReqBody.none
      = .ok raw)
    (hdec : unmarshalWith decCustomHostnameResponsePtr raw = .error e) :
    (API.DeleteCustomHostname d z id).1 = some (.wrap e errUnmarshalError) := by
  simp [API.DeleteCustomHostname, makeRequest, hok, hdec]

theorem delete_ok (d : Dispatcher) (z id : String) (raw : Raw)
    (resp : Option CustomHostnameResponse)
    (hok : d "DELETE" ("/zones/" ++ z ++ "/custom_hostnames/" ++ id) ReqBody.none
      = .ok raw)
    (hdec : unmarshalWith decCustomHostnameResponsePtr raw = .ok resp) :
    (API.DeleteCustomHostname d z id).1 = none := by
  simp [API.DeleteCustomHostname, makeRequest, hok, hdec]

theorem create_dispatch_err (d : Dispatcher) (z : String) (ch : CustomHostname)
    (e : GoErr)
    (h : d "POST" ("/zones/" ++ z ++ "/custom_hostnames") (.hostname ch) = .error e) :
    (API.CreateCustomHostname d z ch).1
      = (none, some (.wrap e errMakeRequestError)) := by
  simp [API.CreateCustomHostname, makeRequest, h]

theorem get_dispatch_err (d : Dispatcher) (z id : String) (e : GoErr)
    (h : d "GET" ("/zones/" ++ z ++ "/custom_hostnames/" ++ id) ReqBody.none
      = .error e) :
    (API.CustomHostname d z id).1 = ({}, some (.wrap e errMakeRequestError)) := by
  simp [API.CustomHostname, makeRequest, h]

theorem fallbackGet_dispatch_err (d : Dispatcher) (z : String) (e : GoErr)
    (h : d "GET" ("/zones/" ++ z ++ "/custom_hostnames/fallback_origin") ReqBody.none
      = .error e) :
    (API.CustomHostnameFallbackOrigin d z).1
      = ({}, some (.wrap e errMakeRequestError)) := by
  simp [API.CustomHostnameFallbackOrigin, makeRequest, h]

theorem fallbackUpdate_dispatch_err (d : Dispatcher) (z : String)
    (chfo : CustomHostnameFallbackOrigin) (e : GoErr)
    (h : d "PUT" ("/zones/" ++ z ++ "/custom_hostnames/fallback_origin")
      (.fallback chfo) = .error e) :
    (API.UpdateCustomHostnameFallbackOrigin d z chfo).1
      = (none, some (.wrap e errMakeRequestError)) := by
  simp [API.UpdateCustomHostnameFallbackOrigin, makeRequest, h]

end CloudflareCH

namespace CloudflareCH

/-! ### Claim theorems -/

theorem find?_first_match (pre rest : List CustomHostname) (ch : CustomHostname)
    (h : String) (hpre : ∀ c ∈ pre, c.Hostname ≠ h) (hch : ch.Hostname = h) :
    (pre ++ ch :: rest).find? (fun c => c.Hostname == h) = some ch := by
  induction pre with
  | nil =>
    rw [List.nil_append]
    exact List.find?_cons_of_pos _ (by simp [hch])
  | cons p ps ih =>
    rw [List.cons_append, List.find?_cons_of_neg _ (by simp [hpre p (by simp)])]
    exact ih (fun c hc => hpre c (by simp [hc]))

/-- C1: CustomHostnameIDByName performs exactly the one dispatch of the List
operation at page 1 with the hostname as filter; when the List succeeds, the
first entry whose Hostname equals the queried hostname yields that entry's ID
with nil error, no exact match yields "" with the distinct "CustomHostname
could not be found" error, and a List error is propagated wrapped with
"CustomHostnames command failed". -/
theorem claim_C1_idByName_spec (d : Dispatcher) (zoneID hostname : String) :
    (API.CustomHostnameIDByName d zoneID hostname).2
        = (API.CustomHostnames d zoneID 1 { Hostname := hostname }).2
    ∧ (API.CustomHostnames d zoneID 1 { Hostname := hostname }).2
        = [⟨"GET", API.customHostnamesURI zoneID 1 { Hostname := hostname }, .none⟩]
    ∧ (∀ e, (API.CustomHostnames d zoneID 1 { Hostname := hostname }).1.2.2 = some e →
        (API.CustomHostnameIDByName d zoneID hostname).1
          = ("", some (.wrap e "CustomHostnames command failed")))
    ∧ ((API.CustomHostnames d zoneID 1 { Hostname := hostname }).1.2.2 = none →
        (∀ ch, (API.CustomHostnames d zoneID 1 { Hostname := hostname }).1.1.toList.find?
              (fun c => c.Hostname == hostname) = some ch →
            (API.CustomHostnameIDByName d zoneID hostname).1 = (ch.ID, none))
        ∧ ((∀ c ∈ (API.CustomHostnames d zoneID 1 { Hostname := hostname }).1.1.toList,
              c.Hostname ≠ hostname) →
            (API.CustomHostnameIDByName d zoneID hostname).1
              = ("", some (.new "CustomHostname could not be found")))) := by
  refine ⟨idByName_calls d zoneID hostname, customHostnames_calls d zoneID 1 _,
    fun e he => idByName_err d zoneID hostname e he, fun he => ⟨?_, ?_⟩⟩
  · exact fun ch hf => idByName_found d zoneID hostname ch he hf
  · intro hall
    apply idByName_notfound d zoneID hostname he
    rw [List.find?_eq_none]
    intro c hc
    simp only [beq_iff_eq]
    exact hall c hc

/-- Witness for C1: a dispatcher answering with a single matching record. -/
theorem claim_C1_witness :
    (API.CustomHostnameIDByName (fun _ _ _ => .ok (some (Json.obj [("result",
        Json.arr [Json.obj [("id", Json.str "abc"), ("hostname", Json.str "a")]])])))
      "z5" "a").1 = ("abc", none) :=
  ((claim_C1_idByName_spec (fun _ _ _ => .ok (some (Json.obj [("result",
        Json.arr [Json.obj [("id", Json.str "abc"), ("hostname", Json.str "a")]])])))
      "z5" "a").2.2.2 rfl).1 { ID := "abc", Hostname := "a" } rfl

/-- C2: the query string built by CustomHostnames carries per_page=50 and
page=(decimal rendering of the page argument); it carries the hostname
parameter, URL-encoded and exactly once, precisely when the filter's
Hostname is non-empty, and omits it entirely when Hostname is empty; the
whole query is dispatched in the one GET call. -/
theorem claim_C2_query_spec (zoneID : String) (page : Int) (filter : CustomHostname)
    (d : Dispatcher) :
    (API.CustomHostnames d zoneID page filter).2
      = [⟨"GET", "/zones/" ++ zoneID ++ "/custom_hostnames"
          ++ ("?" ++ String.mk (API.customHostnamesQueryChars page filter)), .none⟩]
    ∧ ("per_page".data, "50".data)
        ∈ parseQueryPairs (API.customHostnamesQueryChars page filter)
    ∧ ("page".data, (goItoa page).data)
        ∈ parseQueryPairs (API.customHostnamesQueryChars page filter)
    ∧ (filter.Hostname ≠ "" →
        (parseQueryPairs (API.customHostnamesQueryChars page filter)).countP
            (fun p => p.1 == "hostname".data) = 1
        ∧ ("hostname".data, queryEscape filter.Hostname.data)
            ∈ parseQueryPairs (API.customHostnamesQueryChars page filter))
    ∧ (filter.Hostname = "" →
        (parseQueryPairs (API.customHostnamesQueryChars page filter)).countP
            (fun p => p.1 == "hostname".data) = 0) := by
  have hp := parse_queryChars page filter
  have e1 : (("hostname".data : List Char) == "hostname".data) = true := by decide
  have e2 : (("page".data : List Char) == "hostname".data) = false := by decide
  have e3 : (("per_page".data : List Char) == "hostname".data) = false := by decide
  refine ⟨customHostnames_calls d zoneID page filter, ?_, ?_, ?_, ?_⟩
  · rw [hp]; by_cases hf : filter.Hostname = "" <;> simp [hf]
  · rw [hp]; by_cases hf : filter.Hostname = "" <;> simp [hf]
  · intro hf
    rw [hp, if_neg hf]
    exact ⟨by simp [List.countP_cons, e1, e2, e3], by simp⟩
  · intro hf
    rw [hp, if_pos hf]
    simp [List.countP_cons, e2, e3]

/-- Witness for C2: page 2 with filter hostname "a b". -/
theorem claim_C2_witness :
    (("a b" : String) ≠ "")
    ∧ (parseQueryPairs (API.customHostnamesQueryChars 2 { Hostname := "a b" })).countP
        (fun p => p.1 == "hostname".data) = 1
    ∧ ("hostname".data, queryEscape "a b".data)
        ∈ parseQueryPairs (API.customHostnamesQueryChars 2 { Hostname := "a b" }) := by
  have h := (claim_C2_query_spec "z" 2 { Hostname := "a b" }
    (fun _ _ _ => .error (.new "x"))).2.2.2.1 (by decide)
  exact ⟨by decide, h.1, h.2⟩

/-- C3 counterexample: with a dispatch that succeeds but a body that is not
valid JSON, DeleteCustomHostname does NOT swallow the decode failure: it
returns a non-nil error wrapped with errUnmarshalError. -/
theorem claim_C3_cex :
    (API.DeleteCustomHostname (fun _ _ _ => .ok none) "zone1" "host1").1
        = some (GoErr.wrap (.new "invalid JSON") errUnmarshalError)
    ∧ (API.DeleteCustomHostname (fun _ _ _ => .ok none) "zone1" "host1").1 ≠ none :=
  ⟨rfl, by decide⟩

/-- C3 (amended): DeleteCustomHostname makes exactly one DELETE dispatch and
propagates decode failures wrapped with errUnmarshalError (and dispatch
failures wrapped with errMakeRequestError); it returns nil only when both
dispatch and decode succeed. -/
theorem claim_C3_amended_delete (d : Dispatcher) (zoneID customHostnameID : String) :
    (API.DeleteCustomHostname d zoneID customHostnameID).2
      = [⟨"DELETE", "/zones/" ++ zoneID ++ "/custom_hostnames/" ++ customHostnameID,
          .none⟩]
    ∧ (∀ e, d "DELETE" ("/zones/" ++ zoneID ++ "/custom_hostnames/" ++ customHostnameID)
          .none = .error e →
        (API.DeleteCustomHostname d zoneID customHostnameID).1
          = some (.wrap e errMakeRequestError))
    ∧ (∀ raw e, d "DELETE" ("/zones/" ++ zoneID ++ "/custom_hostnames/"
          ++ customHostnameID) .none = .ok raw →
        unmarshalWith decCustomHostnameResponsePtr raw = .error e →
        (API.DeleteCustomHostname d zoneID customHostnameID).1
          = some (.wrap e errUnmarshalError))
    ∧ (∀ raw resp, d "DELETE" ("/zones/" ++ zoneID ++ "/custom_hostnames/"
          ++ customHostnameID) .none = .ok raw →
        unmarshalWith decCustomHostnameResponsePtr raw = .ok resp →
        (API.DeleteCustomHostname d zoneID customHostnameID).1 = none) :=
  ⟨delete_calls d zoneID customHostnameID,
   fun e h => delete_dispatch_err d zoneID customHostnameID e h,
   fun raw e hok hdec => delete_decode_err d zoneID customHostnameID raw e hok hdec,
   fun raw resp hok hdec => delete_ok d zoneID customHostnameID raw resp hok hdec⟩

/-- Witness for the amended C3. -/
theorem claim_C3_amended_witness :
    (API.DeleteCustomHostname (fun _ _ _ => .ok none) "z2" "h2").1
      = some (GoErr.wrap (.new "invalid JSON") errUnmarshalError) :=
  (claim_C3_amended_delete (fun _ _ _ => .ok none) "z2" "h2").2.2.1
    none (.new "invalid JSON") rfl rfl

/-- C4 (code bug): on a decode failure, the List operation wraps the error
with errMakeRequestError (source line 172), not the distinct decode-failure
message errUnmarshalError that every other operation (here exemplified by
UpdateCustomHostnameSSL) uses. -/
theorem claim_C4_list_decode_wrap_bug :
    (API.CustomHostnames (fun _ _ _ => .ok none) "zone1" 1 {}).1.2.2
        = some (GoErr.wrap (.new "invalid JSON") errMakeRequestError)
    ∧ (API.UpdateCustomHostnameSSL (fun _ _ _ => .ok none) "zone1" "host1" {}).1.2
        = some (GoErr.wrap (.new "invalid JSON") errUnmarshalError)
    ∧ errMakeRequestError ≠ errUnmarshalError :=
  ⟨rfl, rfl, by decide⟩

/-- C5: whenever the List operation returns a non-nil error, the returned
slice is the empty non-nil slice and the pagination metadata is the
zero-valued ResultInfo. -/
theorem claim_C5_error_result (d : Dispatcher) (zoneID : String) (page : Int)
    (filter : CustomHostname) (e : GoErr)
    (h : (API.CustomHostnames d zoneID page filter).1.2.2 = some e) :
    (API.CustomHostnames d zoneID page filter).1.1 = some []
    ∧ (API.CustomHostnames d zoneID page filter).1.2.1 = ({} : ResultInfo) := by
  cases hd : d "GET" (API.customHostnamesURI zoneID page filter) ReqBody.none with
  | error e2 =>
    have ht := customHostnames_dispatch_err d zoneID page filter e2 hd
    exact ⟨by rw [ht], by rw [ht]⟩
  | ok raw =>
    cases hdec : unmarshalWith decCustomHostnameListResponse raw with
    | error e2 =>
      have ht := customHostnames_decode_err d zoneID page filter raw e2 hd hdec
      exact ⟨by rw [ht], by rw [ht]⟩
    | ok lr =>
      have ht := customHostnames_ok d zoneID page filter raw lr hd hdec
      rw [ht] at h
      simp at h

/-- Witness for C5: an always-failing dispatcher. -/
theorem claim_C5_witness :
    (API.CustomHostnames (fun _ _ _ => .error (.new "boom")) "z6" 1 {}).1.1 = some []
    ∧ (API.CustomHostnames (fun _ _ _ => .error (.new "boom")) "z6" 1 {}).1.2.1
        = ({} : ResultInfo) :=
  claim_C5_error_result (fun _ _ _ => .error (.new "boom")) "z6" 1 {}
    (.wrap (.new "boom") errMakeRequestError) rfl

/-- C6: when the dispatcher fails, every operation except Delete returns its
zero-valued result together with a non-nil error wrapped with the
dispatch-failure message (for read-by-name, further wrapped with its own
context). -/
theorem claim_C6_dispatch_error (d : Dispatcher) (e : GoErr)
    (hd : ∀ m u b, d m u b = .error e)
    (zoneID customHostnameID hostname : String) (page : Int)
    (filter ch : CustomHostname) (ssl : CustomHostnameSSL)
    (chfo : CustomHostnameFallbackOrigin) :
    (API.CreateCustomHostname d zoneID ch).1
        = (none, some (.wrap e errMakeRequestError))
    ∧ (API.CustomHostname d zoneID customHostnameID).1
        = ({}, some (.wrap e errMakeRequestError))
    ∧ (API.CustomHostnames d zoneID page filter).1
        = (some [], {}, some (.wrap e errMakeRequestError))
    ∧ (API.CustomHostnameIDByName d zoneID hostname).1
        = ("", some (.wrap (.wrap e errMakeRequestError) "CustomHostnames command failed"))
    ∧ (API.UpdateCustomHostnameSSL d zoneID customHostnameID ssl).1
        = (none, some (.wrap e errMakeRequestError))
    ∧ (API.CustomHostnameFallbackOrigin d zoneID).1
        = ({}, some (.wrap e errMakeRequestError))
    ∧ (API.UpdateCustomHostnameFallbackOrigin d zoneID chfo).1
        = (none, some (.wrap e errMakeRequestError)) := by
  refine ⟨create_dispatch_err d zoneID ch e (hd _ _ _),
    get_dispatch_err d zoneID customHostnameID e (hd _ _ _),
    customHostnames_dispatch_err d zoneID page filter e (hd _ _ _),
    ?_,
    updateSSL_dispatch_err d zoneID customHostnameID ssl e (hd _ _ _),
    fallbackGet_dispatch_err d zoneID e (hd _ _ _),
    fallbackUpdate_dispatch_err d zoneID chfo e (hd _ _ _)⟩
  apply idByName_err
  rw [customHostnames_dispatch_err d zoneID 1 { Hostname := hostname } e (hd _ _ _)]

/-- Witness for C6: the Create operation under an always-failing dispatcher. -/
theorem claim_C6_witness :
    (API.CreateCustomHostname (fun _ _ _ => .error (.new "boom")) "z7" {}).1
        = (none, some (.wrap (.new "boom") errMakeRequestError)) :=
  (claim_C6_dispatch_error (fun _ _ _ => .error (.new "boom")) (.new "boom")
    (fun _ _ _ => rfl) "z7" "id7" "h7" 1 {} {} {} {}).1

/-- C7 counterexample: marshalling the zero-valued CustomHostname does not
produce an object with every field absent: the struct-typed fields ssl and
ownership_verification are present (Go's omitempty never omits structs). -/
theorem claim_C7_cex :
    marshalCustomHostname {} = Json.obj
        [("ssl", Json.obj [("settings", Json.obj [])]),
         ("ownership_verification", Json.obj [])]
    ∧ marshalCustomHostname {} ≠ Json.obj [] := by
  have h1 : marshalCustomHostname {} = Json.obj
      [("ssl", Json.obj [("settings", Json.obj [])]),
       ("ownership_verification", Json.obj [])] := rfl
  exact ⟨h1, by rw [h1]; simp⟩

/-- C7 (amended): marshalling the zero-valued CustomHostname omits every
string/slice/map field but keeps the embedded structs ssl (with its empty
settings object) and ownership_verification as empty objects; decoding an
object with all fields absent yields the zero value, and so does decoding
the marshalled zero value (the round trip is idempotent). -/
theorem claim_C7_roundtrip_amended :
    marshalCustomHostname {} = Json.obj
        [("ssl", Json.obj [("settings", Json.obj [])]),
         ("ownership_verification", Json.obj [])]
    ∧ decCustomHostname (some (Json.obj [])) = some {}
    ∧ decCustomHostname (some (marshalCustomHostname {})) = some {} :=
  ⟨rfl, rfl, rfl⟩

/-- C8 counterexample: the client does not truncate the server's list; a
response carrying 51 records is returned with length 51 > 50. -/
theorem claim_C8_cex :
    ((API.CustomHostnames (fun _ _ _ => .ok (some (Json.obj
        [("result", Json.arr (List.replicate 51 (Json.obj [])))])))
      "zone1" 1 {}).1.1.toList.length = 51)
    ∧ ¬ ((API.CustomHostnames (fun _ _ _ => .ok (some (Json.obj
        [("result", Json.arr (List.replicate 51 (Json.obj [])))])))
      "zone1" 1 {}).1.1.toList.length ≤ 50) := by
  have h : (API.CustomHostnames (fun _ _ _ => .ok (some (Json.obj
      [("result", Json.arr (List.replicate 51 (Json.obj [])))])))
      "zone1" 1 {}).1.1.toList.length = 51 := rfl
  exact ⟨h, by rw [h]; omega⟩

/-- C8 (amended): on success the List operation returns exactly the decoded
response's result slice, unchanged; its length is at most 50 whenever the
response carries at most 50 records (the bound is the server's to enforce
via the per_page=50 parameter, not the client's). -/
theorem claim_C8_amended_length (d : Dispatcher) (zoneID : String) (page : Int)
    (filter : CustomHostname) (raw : Raw) (lr : CustomHostnameListResponse)
    (hok : d "GET" (API.customHostnamesURI zoneID page filter) ReqBody.none = .ok raw)
    (hdec : unmarshalWith decCustomHostnameListResponse raw = .ok lr) :
    (API.CustomHostnames d zoneID page filter).1.1 = lr.Result
    ∧ (lr.Result.toList.length ≤ 50 →
        (API.CustomHostnames d zoneID page filter).1.1.toList.length ≤ 50) := by
  have ht := customHostnames_ok d zoneID page filter raw lr hok hdec
  exact ⟨by rw [ht], fun hlen => by rw [ht]; exact hlen⟩

/-- Witness for the amended C8. -/
theorem claim_C8_amended_witness :
    (API.CustomHostnames (fun _ _ _ => .ok (some (Json.obj
        [("result", Json.arr [Json.obj []])]))) "z3" 1 {}).1.1
      = some [({} : CustomHostname)] :=
  (claim_C8_amended_length (fun _ _ _ => .ok (some (Json.obj
      [("result", Json.arr [Json.obj []])]))) "z3" 1 {}
    (some (Json.obj [("result", Json.arr [Json.obj []])]))
    { Result := some [{}] } rfl rfl).1

/-- C9: UpdateCustomHostnameSSL makes exactly one PATCH dispatch to
/zones/(zoneID)/custom_hostnames/(customHostnameID) with the SSL payload
alone as body, and when dispatch and decode both succeed it returns the
decoded envelope with nil error. -/
theorem claim_C9_updateSSL_spec (d : Dispatcher) (zoneID customHostnameID : String)
    (ssl : CustomHostnameSSL) :
    (API.UpdateCustomHostnameSSL d zoneID customHostnameID ssl).2
      = [⟨"PATCH", "/zones/" ++ zoneID ++ "/custom_hostnames/" ++ customHostnameID,
          .ssl ssl⟩]
    ∧ (∀ raw resp,
        d "PATCH" ("/zones/" ++ zoneID ++ "/custom_hostnames/" ++ customHostnameID)
          (.ssl ssl) = .ok raw →
        unmarshalWith decCustomHostnameResponsePtr raw = .ok resp →
        (API.UpdateCustomHostnameSSL d zoneID customHostnameID ssl).1 = (resp, none)) :=
  ⟨updateSSL_calls d zoneID customHostnameID ssl,
   fun raw resp hok hdec => updateSSL_ok d zoneID customHostnameID ssl raw resp hok hdec⟩

/-- Witness for C9. -/
theorem claim_C9_witness :
    (API.UpdateCustomHostnameSSL (fun _ _ _ => .ok (some (Json.obj []))) "z4" "h4" {}).1
      = (some ({} : CustomHostnameResponse), none) :=
  (claim_C9_updateSSL_spec (fun _ _ _ => .ok (some (Json.obj []))) "z4" "h4" {}).2
    (some (Json.obj [])) (some {}) rfl rfl

/-- C10: when the first page holds more than one exact match, the operation
returns the ID of the first match in server order, never a later one. -/
theorem claim_C10_firstMatch (d : Dispatcher) (zoneID hostname : String)
    (pre mid post : List CustomHostname) (ch ch' : CustomHostname)
    (herr : (API.CustomHostnames d zoneID 1 { Hostname := hostname }).1.2.2 = none)
    (hlist : (API.CustomHostnames d zoneID 1 { Hostname := hostname }).1.1.toList
      = pre ++ ch :: (mid ++ ch' :: post))
    (hpre : ∀ c ∈ pre, c.Hostname ≠ hostname)
    (hch : ch.Hostname = hostname) (_hch2 : ch'.Hostname = hostname) :
    (API.CustomHostnameIDByName d zoneID hostname).1 = (ch.ID, none) := by
  apply idByName_found d zoneID hostname ch herr
  rw [hlist]
  exact find?_first_match pre _ ch hostname hpre hch

/-- Witness for C10: two records with the same hostname; the first one's ID
is returned. -/
theorem claim_C10_witness :
    (API.CustomHostnameIDByName (fun _ _ _ => .ok (some (Json.obj [("result",
        Json.arr [Json.obj [("id", Json.str "first"), ("hostname", Json.str "x")],
          Json.obj [("id", Json.str "second"), ("hostname", Json.str "x")]])])))
      "z8" "x").1 = ("first", none) :=
  claim_C10_firstMatch (fun _ _ _ => .ok (some (Json.obj [("result",
      Json.arr [Json.obj [("id", Json.str "first"), ("hostname", Json.str "x")],
        Json.obj [("id", Json.str "second"), ("hostname", Json.str "x")]])])))
    "z8" "x" [] [] []
    { ID := "first", Hostname := "x" } { ID := "second", Hostname := "x" }
    rfl rfl (by simp) rfl rfl

end CloudflareCH
